import Mathlib

/-!
Shallow embedding of the `turtles` rose-engine lathe core
(`src/rust/src/rose_engine/{rosette,cutting_bit,config,lathe,lathe_run}.rs`
and `src/rust/src/{common,diamant,paon,flinque,huiteight,draperie}.rs`)
together with proofs settling the frozen claims about it.

Modelling conventions:
* Rust `f64` values are idealised as real numbers (`ℝ`); `f64` operations
  become the corresponding exact real operations (`sin`, `cos`, `sqrt`,
  `powi`/`powf` become `Real.sin`, `Real.cos`, `Real.sqrt`, monoid `^` and
  `Real.rpow`).  `f64::signum`, which returns `1.0` on `+0.0`, is modelled
  by `rSignum` below (a real is never a negative zero).
* Rust `usize` becomes `ℕ`; `usize` division and remainder become `Nat`
  division and remainder; `x as usize` on a non-negative float becomes
  `Nat.floor`.
* `Vec<T>` becomes `List T`; a `for` push-loop becomes `List.map` /
  `List.filterMap` over `List.range`, in loop order.
* Fallible constructors (`Result<Self, SpirographError>`) become
  `Except SpirographError`.
* File output in `to_svg` is modelled by returning the data that would be
  written (an `SvgWrite`); the error path returns before any write.
-/

namespace Turtles

noncomputable section

open Real

/-- A 2D point, from `common.rs` (`Point2D`). -/
structure Point2D where
  x : ℝ
  y : ℝ

/-- Construct a point, mirroring `Point2D::new`. -/
def Point2D.mk2 (x y : ℝ) : Point2D := ⟨x, y⟩

/-- Euclidean distance between two points. -/
def Point2D.dist (p q : Point2D) : ℝ :=
  Real.sqrt ((p.x - q.x) ^ 2 + (p.y - q.y) ^ 2)

/-- Error type from `common.rs` (`SpirographError`). -/
inductive SpirographError : Type where
  | InvalidRadius (msg : String)
  | InvalidParameter (msg : String)
  | ExportError (msg : String)
  deriving Repr, DecidableEq

/-- Rust `f64::signum` restricted to genuine reals: `1` for `x ≥ 0`
(IEEE `+0.0` has sign `1.0`), `-1` for `x < 0`. -/
def rSignum (x : ℝ) : ℝ := if x < 0 then -1 else 1

/-- Rust `f64::to_radians`: multiply by `π / 180`. -/
def toRadians (x : ℝ) : ℝ := x * (Real.pi / 180)

/-- Rust `f64::rem_euclid` for a positive modulus: `x - y * ⌊x / y⌋`,
always in `[0, y)` for `y > 0`. -/
def remEuclid (x y : ℝ) : ℝ := x - y * (⌊x / y⌋ : ℤ)

/-- The `i32` reinterpretation of a `u32` value (`e as i32` in Rust):
values below `2^31` are unchanged, larger ones wrap to negatives. -/
def i32OfU32 (e : ℕ) : ℤ :=
  if e % 2 ^ 32 < 2 ^ 31 then ((e % 2 ^ 32 : ℕ) : ℤ)
  else ((e % 2 ^ 32 : ℕ) : ℤ) - 2 ^ 32

/-- Rust `x.powi(e as i32)` for a `u32` exponent `e`: an integer power of
the real, where a wrapped (negative) exponent yields the reciprocal power
(`zpow` on ℝ; the IEEE infinity Rust produces at `x = 0` with a negative
exponent is outside the real idealization, where `0⁻¹ = 0`). -/
def powiU32 (x : ℝ) (e : ℕ) : ℝ := x ^ i32OfU32 e

/-- Rosette pattern variants, from `rosette.rs` (`RosettePattern`). -/
inductive RosettePattern : Type where
  | Circular
  | Elliptical (eccentricity rotation : ℝ)
  | Sinusoidal (frequency : ℝ)
  | MultiLobe (lobes : ℕ)
  | Epicycloid (petals : ℕ)
  | HuitEight (lobes : ℕ)
  | GrainDeRiz (grain_size : ℝ) (rows : ℕ)
  | Draperie (frequency : ℝ) (wave_exponent : ℕ)
  | Paon (frequency : ℝ)
  | Diamant (divisions : ℕ)
  | Custom (table : List ℝ) (samples : ℕ)

/-- The floating index into a `Custom` rosette's lookup table:
`angle.rem_euclid(2π) / (2π) * samples` (from the `Custom` branch of
`RosettePattern::displacement`). -/
def customIndexF (angle : ℝ) (samples : ℕ) : ℝ :=
  remEuclid angle (2 * Real.pi) / (2 * Real.pi) * samples

/-- First table index of the `Custom` branch:
`index_f.floor() as usize % samples`. -/
def customIndex (angle : ℝ) (samples : ℕ) : ℕ :=
  (⌊customIndexF angle samples⌋).toNat % samples

/-- Second table index of the `Custom` branch: `(index + 1) % samples`. -/
def customNextIndex (angle : ℝ) (samples : ℕ) : ℕ :=
  (customIndex angle samples + 1) % samples

/-- Radial displacement of a rosette at a given angle, from
`RosettePattern::displacement` in `rosette.rs`, branch by branch. -/
def RosettePattern.displacement : RosettePattern → ℝ → ℝ
  | .Circular, _ => 0
  | .Elliptical eccentricity rotation, angle =>
      let rotated_angle := angle - rotation
      let a : ℝ := 1
      let b : ℝ := 1 / eccentricity
      let r := (a * b) /
        Real.sqrt ((b * Real.cos rotated_angle) ^ 2 + (a * Real.sin rotated_angle) ^ 2)
      (r - 1) * eccentricity
  | .Sinusoidal frequency, angle => Real.sin (angle * frequency)
  | .MultiLobe lobes, angle =>
      |Real.sin (angle * (lobes : ℝ) / 2)| * 2 - 1
  | .Epicycloid petals, angle => Real.cos (angle * (petals : ℝ))
  | .HuitEight lobes, angle =>
      Real.sin (angle * (lobes : ℝ)) * Real.cos (angle / 2)
  | .GrainDeRiz grain_size rows, angle =>
      |Real.sin (angle * (rows : ℝ))| * Real.sin (angle / grain_size)
  | .Draperie frequency wave_exponent, angle =>
      let s := Real.sin (angle * frequency)
      if wave_exponent ≤ 1 then s else powiU32 |s| wave_exponent * rSignum s
  | .Paon frequency, angle => Real.sin (angle * frequency)
  | .Diamant divisions, angle =>
      let n : ℝ := (divisions : ℝ)
      let wave1 := Real.sin (angle * n)
      let wave2 := Real.sin (angle * n + Real.pi / 4)
      (|wave1| + |wave2|) / 2 * 2 - 1
  | .Custom table samples, angle =>
      let index := customIndex angle samples
      let next_index := customNextIndex angle samples
      let t := customIndexF angle samples - ⌊customIndexF angle samples⌋
      table.getD index 0 * (1 - t) + table.getD next_index 0 * t

/-- Lookup table built by `RosettePattern::from_function`: `samples` values
of `func` at angles `i * 2π / samples`. -/
def fromFunctionTable (func : ℝ → ℝ) (samples : ℕ) : List ℝ :=
  (List.range samples).map fun (i : ℕ) => func ((i : ℝ) * 2 * Real.pi / samples)

/-- `RosettePattern::from_function` from `rosette.rs`. -/
def RosettePattern.fromFunction (func : ℝ → ℝ) (samples : ℕ) : RosettePattern :=
  .Custom (fromFunctionTable func samples) samples

/-- Shape of the cutting bit, from `cutting_bit.rs` (`BitShape`). -/
inductive BitShape : Type where
  | VShaped (angle : ℝ)
  | Flat
  | Round
  | Elliptical (aspect_ratio : ℝ)
  | Custom (profile : List Point2D)

/-- A bit shape is built-in when it is not `Custom` (the spec's
`width_at_depth` contract in §4.2 ranges over the built-in shapes). -/
def BitShape.builtin : BitShape → Prop
  | .Custom _ => False
  | _ => True

/-- Cutting bit record, from `cutting_bit.rs` (`CuttingBit`). -/
structure CuttingBit where
  shape : BitShape
  width : ℝ
  depth : ℝ

/-- `CuttingBit::v_shaped`: depth derived as `width/2 / tan(angle_rad/2)`. -/
def CuttingBit.v_shaped (angle width : ℝ) : CuttingBit :=
  ⟨.VShaped angle, width, width / 2 / Real.tan (toRadians angle / 2)⟩

/-- `CuttingBit::flat`. -/
def CuttingBit.flat (width depth : ℝ) : CuttingBit := ⟨.Flat, width, depth⟩

/-- `CuttingBit::round`: depth is half the diameter. -/
def CuttingBit.round (diameter : ℝ) : CuttingBit := ⟨.Round, diameter, diameter / 2⟩

/-- `CuttingBit::elliptical`. -/
def CuttingBit.elliptical (width aspect_ratio : ℝ) : CuttingBit :=
  ⟨.Elliptical aspect_ratio, width, width / aspect_ratio / 2⟩

/-- Modelled from the spec: `width_at_depth` is named by the spec (§3
invariant on `CuttingBit` and the §4.2 contract) but has no implementation
anywhere under `src/`; only `cross_section` exists.  Following the spec's
words: the V-shape is linear in depth, `Round` and `Elliptical` follow the
circle/ellipse boundary equation scaled to the bit's `width` and `depth`,
every shape reaches exactly `0` at `d ≥ depth`, and `Flat` keeps its full
width until its depth.  The spec constrains only the built-in shapes
(`Custom` interpolates a user profile it never pins down), so the `Custom`
branch is left at `0`. -/
def CuttingBit.width_at_depth (bit : CuttingBit) (d : ℝ) : ℝ :=
  match bit.shape with
  | .VShaped _ => if bit.depth ≤ d then 0 else bit.width * (1 - d / bit.depth)
  | .Flat => if bit.depth ≤ d then 0 else bit.width
  | .Round => if bit.depth ≤ d then 0 else bit.width * Real.sqrt (1 - (d / bit.depth) ^ 2)
  | .Elliptical _ =>
      if bit.depth ≤ d then 0 else bit.width * Real.sqrt (1 - (d / bit.depth) ^ 2)
  | .Custom _ => 0

/-- Lathe configuration, from `config.rs` (`RoseEngineConfig`). -/
structure RoseEngineConfig where
  rosette : RosettePattern
  amplitude : ℝ
  base_radius : ℝ
  phase : ℝ
  start_angle : ℝ
  end_angle : ℝ
  resolution : ℕ
  secondary_rosette : Option RosettePattern
  secondary_amplitude : ℝ
  secondary_phase : ℝ
  depth_modulation : Bool
  depth_modulation_amplitude : ℝ
  depth_modulation_frequency : ℝ

/-- `RoseEngineConfig::new` with its defaults. -/
def RoseEngineConfig.new (base_radius amplitude : ℝ) : RoseEngineConfig where
  rosette := .MultiLobe 12
  amplitude := amplitude
  base_radius := base_radius
  phase := 0
  start_angle := 0
  end_angle := 2 * Real.pi
  resolution := 1000
  secondary_rosette := none
  secondary_amplitude := 0
  secondary_phase := 0
  depth_modulation := false
  depth_modulation_amplitude := 0
  depth_modulation_frequency := 1

/-- `RoseEngineConfig::radius_at_angle`: base radius plus amplitude-scaled
primary displacement plus (when present) amplitude-scaled secondary
displacement. -/
def RoseEngineConfig.radius_at_angle (c : RoseEngineConfig) (angle : ℝ) : ℝ :=
  let primary_displacement := c.rosette.displacement (angle + c.phase)
  let secondary_part :=
    match c.secondary_rosette with
    | some secondary => c.secondary_amplitude * secondary.displacement (angle + c.secondary_phase)
    | none => 0
  c.base_radius + (c.amplitude * primary_displacement + secondary_part)

/-- `RoseEngineConfig::depth_at_angle`. -/
def RoseEngineConfig.depth_at_angle (c : RoseEngineConfig) (angle base_depth : ℝ) : ℝ :=
  if c.depth_modulation = false then base_depth
  else
    base_depth * (1 + c.depth_modulation_amplitude *
      Real.sin (angle * c.depth_modulation_frequency))

/-- Single-pass lathe, from `lathe.rs` (`RoseEngineLathe`).  The generated
`cut_geometry`/`rendered` data is represented by the tool path and the
rendered line list (center line first, then the two cut edges). -/
structure RoseEngineLathe where
  config : RoseEngineConfig
  cutting_bit : CuttingBit
  center_x : ℝ
  center_y : ℝ
  tool_path : List Point2D
  rendered_lines : List (List Point2D)
  generated : Bool

/-- `RoseEngineLathe::new_with_center`: rejects non-positive base radius,
negative amplitude, and resolution below 10, in that order. -/
def RoseEngineLathe.new_with_center (config : RoseEngineConfig) (cutting_bit : CuttingBit)
    (center_x center_y : ℝ) : Except SpirographError RoseEngineLathe :=
  if config.base_radius ≤ 0 then
    .error (.InvalidParameter "base_radius must be positive")
  else if config.amplitude < 0 then
    .error (.InvalidParameter "amplitude must be non-negative")
  else if config.resolution < 10 then
    .error (.InvalidParameter "resolution must be at least 10")
  else
    .ok ⟨config, cutting_bit, center_x, center_y, [], [], false⟩

/-- `RoseEngineLathe::new` delegates to `new_with_center` at the origin. -/
def RoseEngineLathe.new (config : RoseEngineConfig) (cutting_bit : CuttingBit) :
    Except SpirographError RoseEngineLathe :=
  RoseEngineLathe.new_with_center config cutting_bit 0 0

/-- The tool path produced by `RoseEngineLathe::generate_tool_path`:
`resolution + 1` samples of `radius_at_angle` converted to Cartesian
coordinates around the center. -/
def RoseEngineLathe.freshToolPath (l : RoseEngineLathe) : List Point2D :=
  let angle_step := (l.config.end_angle - l.config.start_angle) / (l.config.resolution : ℝ)
  (List.range (l.config.resolution + 1)).map fun (i : ℕ) =>
    let angle := l.config.start_angle + (i : ℝ) * angle_step
    let radius := l.config.radius_at_angle angle
    ⟨l.center_x + radius * Real.cos angle, l.center_y + radius * Real.sin angle⟩

/-- Rust `atan2(dy, dx)`, modelled by the complex argument. -/
def atan2 (dy dx : ℝ) : ℝ := Complex.arg ⟨dx, dy⟩

/-- Local tangent angle at index `i` of a path, from the edge loop of
`RoseEngineLathe::generate_cut_geometry`: forward difference at the first
point, backward difference at the last, and the angle of the averaged unit
tangents of the two adjacent segments in between. -/
def tangentAngleAt (path : List Point2D) (i : ℕ) : ℝ :=
  let pt := fun j => path.getD j ⟨0, 0⟩
  if i = 0 then
    atan2 ((pt 1).y - (pt 0).y) ((pt 1).x - (pt 0).x)
  else if i = path.length - 1 then
    atan2 ((pt i).y - (pt (i - 1)).y) ((pt i).x - (pt (i - 1)).x)
  else
    let dx1 := (pt i).x - (pt (i - 1)).x
    let dy1 := (pt i).y - (pt (i - 1)).y
    let dx2 := (pt (i + 1)).x - (pt i).x
    let dy2 := (pt (i + 1)).y - (pt i).y
    let len1 := Real.sqrt (dx1 * dx1 + dy1 * dy1)
    let len2 := Real.sqrt (dx2 * dx2 + dy2 * dy2)
    if 0 < len1 ∧ 0 < len2 then
      atan2 ((dy1 / len1 + dy2 / len2) / 2) ((dx1 / len1 + dx2 / len2) / 2)
    else
      atan2 dy1 dx1

/-- One cut edge of `generate_cut_geometry`: each path point offset by half
the bit width perpendicular to the local tangent; `sign` is `-1` for the
left edge and `1` for the right edge. -/
def cutEdge (path : List Point2D) (half_width sign : ℝ) : List Point2D :=
  (List.range path.length).map fun (i : ℕ) =>
    let p := path.getD i ⟨0, 0⟩
    let perp_angle := tangentAngleAt path i + Real.pi / 2
    ⟨p.x + sign * (half_width * Real.cos perp_angle),
     p.y + sign * (half_width * Real.sin perp_angle)⟩

/-- `RoseEngineLathe::generate`: recompute the tool path, the cut edges and
the rendered lines (center line first, then left and right edges, as pushed
by `generate_rendered_output`), and set the `generated` flag. -/
def RoseEngineLathe.generate (l : RoseEngineLathe) : RoseEngineLathe :=
  let path := l.freshToolPath
  let edges :=
    if path.length < 2 then []
    else [cutEdge path (l.cutting_bit.width / 2) (-1), cutEdge path (l.cutting_bit.width / 2) 1]
  { l with
    tool_path := path
    rendered_lines := path :: edges
    generated := true }

/-- The data `RoseEngineLathe::to_svg` would write to disk. -/
structure SvgWrite where
  lines : List (List Point2D)

/-- `RoseEngineLathe::to_svg`: fails with the "not generated" `ExportError`
before touching the filesystem when `generate` has not run; otherwise the
rendered lines are written out. -/
def RoseEngineLathe.to_svg (l : RoseEngineLathe) : Except SpirographError SvgWrite :=
  if l.generated = false then
    .error (.ExportError "Pattern not generated. Call generate() first.")
  else
    .ok ⟨l.rendered_lines⟩

/-- Diamant (tangent-circle) configuration, from `diamant.rs`. -/
structure DiamantConfig where
  num_circles : ℕ
  circle_radius : ℝ
  resolution : ℕ

/-- Paon configuration, from `paon.rs`. -/
structure PaonConfig where
  num_lines : ℕ
  radius : ℝ
  amplitude : ℝ
  wave_frequency : ℝ
  phase_rate : ℝ
  resolution : ℕ
  n_harmonics : ℕ
  fan_angle : ℝ
  vanishing_point : ℝ

/-- Flinqué configuration, from `flinque.rs`. -/
structure FlinqueConfig where
  num_petals : ℕ
  num_waves : ℕ
  wave_amplitude : ℝ
  wave_frequency : ℝ
  inner_radius_ratio : ℝ

/-- Huit-eight configuration, from `huiteight.rs`. -/
structure HuitEightConfig where
  num_curves : ℕ
  scale : ℝ
  resolution : ℕ
  num_clusters : ℕ
  cluster_spread : ℝ

/-- `paon_wave_fn` from `paon.rs`: a plain sine for zero harmonics, else a
normalised alternating triangle-wave Fourier sum. -/
def paonWaveFn (theta : ℝ) (n_harmonics : ℕ) : ℝ :=
  if n_harmonics = 0 then Real.sin theta
  else
    let coeff := fun k : ℕ => (-1 : ℝ) ^ k / ((2 * k + 1 : ℕ) : ℝ) ^ 2
    let sum := ∑ k ∈ Finset.range (n_harmonics + 1),
      coeff k * Real.sin (((2 * k + 1 : ℕ) : ℝ) * theta)
    let norm := ∑ k ∈ Finset.range (n_harmonics + 1),
      coeff k * Real.sin (((2 * k + 1 : ℕ) : ℝ) * Real.pi / 2)
    sum / norm

/-- The multi-pass lathe run, from `lathe_run.rs` (`RoseEngineLatheRun`). -/
structure RoseEngineLatheRun where
  base_config : RoseEngineConfig
  cutting_bit : CuttingBit
  num_passes : ℕ
  segments_per_pass : ℕ
  radius_step : ℝ
  phase_shift : ℝ
  phase_oscillations : ℝ
  circular_phase : ℝ
  phase_exponent : ℕ
  center_x : ℝ
  center_y : ℝ
  linear_paon : Option PaonConfig
  circular_diamant : Option DiamantConfig
  polar_limacon : Option Unit
  concentric_flinque : Option FlinqueConfig
  circular_huiteight : Option HuitEightConfig
  passes : List RoseEngineLathe
  segmented_lines : List (List Point2D)
  generated : Bool

/-- `RoseEngineLatheRun::new_with_segments`: rejects zero passes, zero
segments per pass and non-positive base radius (each with
`InvalidParameter`), then builds the run with every specialized-generator
field unset. -/
def RoseEngineLatheRun.new_with_segments (config : RoseEngineConfig) (cutting_bit : CuttingBit)
    (num_passes segments_per_pass : ℕ) (center_x center_y : ℝ) :
    Except SpirographError RoseEngineLatheRun :=
  if num_passes = 0 then
    .error (.InvalidParameter "num_passes must be at least 1")
  else if segments_per_pass = 0 then
    .error (.InvalidParameter "segments_per_pass must be at least 1")
  else if config.base_radius ≤ 0 then
    .error (.InvalidParameter "base_radius must be positive")
  else
    .ok ⟨config, cutting_bit, num_passes, segments_per_pass, 0, 0, 1, 0, 1,
      center_x, center_y, none, none, none, none, none, [], [], false⟩

/-- `RoseEngineLatheRun::new`: 24 segments per pass, centered at the origin. -/
def RoseEngineLatheRun.new (config : RoseEngineConfig) (cutting_bit : CuttingBit)
    (num_passes : ℕ) : Except SpirographError RoseEngineLatheRun :=
  RoseEngineLatheRun.new_with_segments config cutting_bit num_passes 24 0 0

/-- `RoseEngineLatheRun::new_with_center`: 24 segments per pass. -/
def RoseEngineLatheRun.new_with_center (config : RoseEngineConfig) (cutting_bit : CuttingBit)
    (num_passes : ℕ) (center_x center_y : ℝ) : Except SpirographError RoseEngineLatheRun :=
  RoseEngineLatheRun.new_with_segments config cutting_bit num_passes 24 center_x center_y

/-- `RoseEngineLatheRun::new_diamant`: wraps `new_with_segments` (base
radius and amplitude both `circle_radius`, one segment per pass, a 30° V
bit of width `0.02`) and sets the diamant specialized-generator field. -/
def RoseEngineLatheRun.new_diamant (num_circles : ℕ) (circle_radius : ℝ) (resolution : ℕ)
    (center_x center_y : ℝ) : Except SpirographError RoseEngineLatheRun :=
  let diamant_config : DiamantConfig := ⟨num_circles, circle_radius, resolution⟩
  let re_config := RoseEngineConfig.new circle_radius circle_radius
  let bit := CuttingBit.v_shaped 30 0.02
  (RoseEngineLatheRun.new_with_segments re_config bit num_circles 1 center_x center_y).map
    fun run => { run with circular_diamant := some diamant_config }

/-- `RoseEngineLatheRun::phase_shape_fn`: a dome envelope
`(1 - (1 - |sin t|)^circular_phase) * signum (sin t)` when
`circular_phase > 0`, else a signed power
`|sin t|^(phase_exponent as i32) * signum (sin t)`, where the `powi`
exponent is the `u32` field reinterpreted as `i32` (wrapping to a
reciprocal power at or above `2^31`). -/
def RoseEngineLatheRun.phase_shape_fn (run : RoseEngineLatheRun) (t : ℝ) : ℝ :=
  if 0 < run.circular_phase then
    let s := Real.sin t
    let dome := 1 - Real.rpow (1 - |s|) run.circular_phase
    dome * rSignum s
  else
    let s := Real.sin t
    powiU32 |s| run.phase_exponent * rSignum s

/-- The per-pass configuration computed by the generic loop of
`RoseEngineLatheRun::generate`: concentric-ring mode offsets the base
radius symmetrically and oscillates the phase through `phase_shape_fn`;
phase-rotation mode advances the phase by `i * 2π/num_passes`.  (The Rust
`(num_passes - 1) as f64` is `usize` arithmetic; `Nat` subtraction agrees
with it for the constructor-enforced `num_passes ≥ 1`.) -/
def RoseEngineLatheRun.passConfig (run : RoseEngineLatheRun) (i : ℕ) : RoseEngineConfig :=
  if run.radius_step ≠ 0 then
    let offset := (i : ℝ) - ((run.num_passes - 1 : ℕ) : ℝ) / 2
    let phase_t := 2 * Real.pi * run.phase_oscillations * (i : ℝ) / (run.num_passes : ℝ)
    { run.base_config with
      base_radius := run.base_config.base_radius + offset * run.radius_step
      phase := run.base_config.phase + run.phase_shift * run.phase_shape_fn phase_t }
  else
    let rotation_step := 2 * Real.pi / (run.num_passes : ℝ)
    { run.base_config with
      phase := run.base_config.phase + (i : ℝ) * rotation_step }

/-- `RoseEngineLatheRun::segment_path`, as a function of the
segments-per-pass count: one unbroken polyline when it is `1`, otherwise up
to `segments_per_pass` slices of `draw_points = ⌊(total/k) * 0.7⌋` points
starting every `total/k` points. -/
def segmentPath (segments_per_pass : ℕ) (path : List Point2D) : List (List Point2D) :=
  if path.isEmpty ∨ segments_per_pass = 0 then []
  else if segments_per_pass = 1 then [path]
  else
    let total_points := path.length
    let points_per_cycle := total_points / segments_per_pass
    let draw_points := ⌊(points_per_cycle : ℝ) * (0.7 : ℝ)⌋₊
    (List.range segments_per_pass).filterMap fun (seg_idx : ℕ) =>
      let start_idx := seg_idx * points_per_cycle
      let end_idx := min (start_idx + draw_points) total_points
      if start_idx < total_points ∧ start_idx < end_idx then
        let segment := (path.drop start_idx).take (end_idx - start_idx)
        if segment.isEmpty then none else some segment
      else none

/-- Diamant branch of `RoseEngineLatheRun::generate`: `num_circles` circles
of radius `circle_radius`, centers `circle_radius` from the pattern center
at evenly spaced angles, each sampled at `resolution + 1` points of the
Cartesian circle parameterisation. -/
def diamantLines (cfg : DiamantConfig) (cx cy : ℝ) : List (List Point2D) :=
  let r := cfg.circle_radius
  let angle_step := 2 * Real.pi / (cfg.num_circles : ℝ)
  (List.range cfg.num_circles).map fun (i : ℕ) =>
    let rotation_angle := (i : ℝ) * angle_step
    let circle_cx := cx + r * Real.cos rotation_angle
    let circle_cy := cy + r * Real.sin rotation_angle
    (List.range (cfg.resolution + 1)).map fun (j : ℕ) =>
      let t := (j : ℝ) / (cfg.resolution : ℝ)
      let theta := 2 * Real.pi * t
      ⟨circle_cx + r * Real.cos theta, circle_cy + r * Real.sin theta⟩

/-- Rotation angles of the huit-eight branch (clustered when
`0 < num_clusters < num_curves`, else uniform). -/
def huiteightRotations (cfg : HuitEightConfig) : List ℝ :=
  let n := cfg.num_curves
  if 0 < cfg.num_clusters ∧ cfg.num_clusters < n then
    let nc := cfg.num_clusters
    let curves_per_cluster := n / nc
    let remainder := n % nc
    let sector := 2 * Real.pi / (nc : ℝ)
    let spread := if 0 < cfg.cluster_spread then cfg.cluster_spread else sector * 0.5
    (List.range nc).flatMap fun (k : ℕ) =>
      let cluster_center := (k : ℝ) * sector
      let count := curves_per_cluster + if k < remainder then 1 else 0
      (List.range count).map fun (c : ℕ) =>
        let t := if 1 < count then (c : ℝ) / ((count - 1 : ℕ) : ℝ) - 0.5 else 0
        cluster_center + t * spread
  else
    (List.range n).map fun (i : ℕ) => (i : ℝ) * (2 * Real.pi / (n : ℝ))

/-- Huit-eight branch of `RoseEngineLatheRun::generate`: the Bernoulli
lemniscate sampled at `resolution + 1` points, rotated and translated per
curve. -/
def huiteightLines (cfg : HuitEightConfig) (cx cy : ℝ) : List (List Point2D) :=
  (huiteightRotations cfg).map fun rot =>
    (List.range (cfg.resolution + 1)).map fun (j : ℕ) =>
      let t := 2 * Real.pi * (j : ℝ) / (cfg.resolution : ℝ)
      let denom := 1 + Real.sin t * Real.sin t
      let lx := cfg.scale * Real.cos t / denom
      let ly := cfg.scale * Real.sin t * Real.cos t / denom
      ⟨cx + lx * Real.cos rot - ly * Real.sin rot,
       cy + lx * Real.sin rot + ly * Real.cos rot⟩

/-- Flinqué branch of `RoseEngineLatheRun::generate`: concentric chevron
rings between the inner and outer radii, skipping rings below the safe
minimum radius. -/
def flinqueLines (cfg : FlinqueConfig) (outer_r cx cy : ℝ) : List (List Point2D) :=
  let inner_r := outer_r * cfg.inner_radius_ratio
  let min_radius := cfg.wave_amplitude * 0.1
  (List.range cfg.num_waves).filterMap fun (ring_idx : ℕ) =>
    let t := ((ring_idx : ℝ) + 0.5) / (cfg.num_waves : ℝ)
    let base_r := inner_r + (outer_r - inner_r) * t
    if base_r < min_radius then none
    else
      let points_per_ring := cfg.num_petals * 80
      some ((List.range (points_per_ring + 1)).map fun (i : ℕ) =>
        let angle := 2 * Real.pi * (i : ℝ) / (points_per_ring : ℝ)
        let petal_phase := angle * (cfg.num_petals : ℝ) / 2
        let wave := |Real.sin petal_phase|
        let chevron := cfg.wave_amplitude * wave
        let ripple := 0.05 * cfg.wave_amplitude * Real.sin (petal_phase * cfg.wave_frequency)
        let r_mod := base_r + chevron + ripple
        ⟨r_mod * Real.cos angle + cx, r_mod * Real.sin angle + cy⟩)

/-- Paon branch of `RoseEngineLatheRun::generate`: fan lines from a
vanishing point with logarithmic-distance oscillation, clipped to the dial
circle; lines with fewer than two surviving points are dropped. -/
def paonLines (cfg : PaonConfig) (cx cy : ℝ) : List (List Point2D) :=
  let r := cfg.radius
  let n := cfg.num_lines
  let diameter := 2 * r
  let y_vp := r + cfg.vanishing_point * diameter
  let y_crit := min (r * r / y_vp) r
  let angle_max := Real.arctan (Real.sqrt (r * r - y_crit * y_crit) / (y_vp - y_crit))
  let dist_near := y_vp - r
  (List.range n).filterMap fun (i : ℕ) =>
    let frac := if 1 < n then (i : ℝ) / ((n - 1 : ℕ) : ℝ) else 0.5
    let angle := -angle_max + 2 * angle_max * frac
    let tan_a := Real.tan angle
    let line_phase :=
      -2 * Real.pi * cfg.fan_angle * |Real.sin (Real.pi * cfg.phase_rate * frac)|
    let line_points := (List.range (cfg.resolution + 1)).filterMap fun (j : ℕ) =>
      let t_frac := (j : ℝ) / (cfg.resolution : ℝ)
      let y := -r + diameter * t_frac
      let x_base := (y_vp - y) * tan_a
      let d := y_vp - y
      let theta := 2 * Real.pi * cfg.wave_frequency * Real.log (d / dist_near) + line_phase
      let x := x_base + cfg.amplitude * paonWaveFn theta cfg.n_harmonics
      if x * x + y * y ≤ r * r then some (⟨cx + x, cy + y⟩ : Point2D) else none
    if 2 ≤ line_points.length then some line_points else none

/-- One iteration of the generic pass loop of
`RoseEngineLatheRun::generate`: construct the single-pass lathe for pass
`i`; on validation failure the pass is skipped entirely. -/
def RoseEngineLatheRun.passLathe (run : RoseEngineLatheRun) (i : ℕ) :
    Option RoseEngineLathe :=
  match RoseEngineLathe.new_with_center (run.passConfig i) run.cutting_bit
      run.center_x run.center_y with
  | .ok lathe => some lathe.generate
  | .error _ => none

/-- `RoseEngineLatheRun::generate`: the five specialized branches in source
order (diamant, huit-eight, flinqué, paon), then the generic loop, which
keeps only the passes whose lathe construction succeeds and segments each
kept pass's first rendered line. -/
def RoseEngineLatheRun.generate (run : RoseEngineLatheRun) : RoseEngineLatheRun :=
  match run.circular_diamant with
  | some diamant_cfg =>
    { run with
      passes := []
      segmented_lines := diamantLines diamant_cfg run.center_x run.center_y
      generated := true }
  | none =>
    match run.circular_huiteight with
    | some he_cfg =>
      { run with
        passes := []
        segmented_lines := huiteightLines he_cfg run.center_x run.center_y
        generated := true }
    | none =>
      match run.concentric_flinque with
      | some flinque_cfg =>
        { run with
          passes := []
          segmented_lines :=
            flinqueLines flinque_cfg run.base_config.base_radius run.center_x run.center_y
          generated := true }
      | none =>
        match run.linear_paon with
        | some paon_cfg =>
          { run with
            passes := []
            segmented_lines := paonLines paon_cfg run.center_x run.center_y
            generated := true }
        | none =>
          let kept := (List.range run.num_passes).filterMap run.passLathe
          { run with
            passes := kept
            segmented_lines := kept.flatMap fun lathe =>
              match lathe.rendered_lines with
              | [] => []
              | first :: _ =>
                if first.isEmpty then [] else segmentPath run.segments_per_pass first
            generated := true }

/-- `RoseEngineLatheRun::to_svg`: fails with the "not generated"
`ExportError` before touching the filesystem when `generate` has not run;
otherwise the segmented lines are written out. -/
def RoseEngineLatheRun.to_svg (run : RoseEngineLatheRun) : Except SpirographError SvgWrite :=
  if run.generated = false then
    .error (.ExportError "Pattern not generated. Call generate() first.")
  else
    .ok ⟨run.segmented_lines⟩

/-- Reference point for the diamant equivalence claim, written from the
spec's words: circle `i`'s center at `(10·cos(2πi/12), 10·sin(2πi/12))`,
sample `j` at parameter `j/36` of the Cartesian circle parameterisation. -/
def diamantRef (i j : ℕ) : Point2D :=
  ⟨10 * Real.cos (2 * Real.pi * (i : ℝ) / 12) + 10 * Real.cos (2 * Real.pi * (j : ℝ) / 36),
   10 * Real.sin (2 * Real.pi * (i : ℝ) / 12) + 10 * Real.sin (2 * Real.pi * (j : ℝ) / 36)⟩

/-- The run `new_diamant 12 10.0 36 (0,0)` constructs (validation passes,
the diamant specialized-generator field is set). -/
def diamantRun12 : RoseEngineLatheRun :=
  ⟨RoseEngineConfig.new 10 10, CuttingBit.v_shaped 30 0.02, 12, 1, 0, 0, 1, 0, 1,
   0, 0, none, some ⟨12, 10, 36⟩, none, none, none, [], [], false⟩

/-- The claim's phase-shape formula, written from the spec's words with the
mathematical sign function (`Real.sign`, which is `0` at `0` — unlike the
code's `f64::signum`, which is `1` at `+0.0`). -/
def specPhaseShape (circular_phase : ℝ) (phase_exponent : ℕ) (t : ℝ) : ℝ :=
  if 0 < circular_phase then
    Real.sign (Real.sin t) * (1 - Real.rpow (1 - |Real.sin t|) circular_phase)
  else
    Real.sign (Real.sin t) * |Real.sin t| ^ phase_exponent

/-- Concentric-ring run exhibiting the `phase_exponent = 0` corner of the
phase-shape formula (one pass, unit radius step and phase shift). -/
def c2CexRun : RoseEngineLatheRun :=
  ⟨RoseEngineConfig.new 1 0, CuttingBit.flat 1 1, 1, 1, 1, 1, 1, 0, 0,
   0, 0, none, none, none, none, none, [], [], false⟩

/-- Concentric-ring run with `phase_exponent = 1` (the default), used to
instantiate the amended pass-configuration formula. -/
def c2WitRun : RoseEngineLatheRun :=
  ⟨RoseEngineConfig.new 1 0, CuttingBit.flat 1 1, 2, 1, 1, 1, 1, 0, 1,
   0, 0, none, none, none, none, none, [], [], false⟩

/-- Parameter admissibility under which each rosette variant is genuinely
2π-periodic: variants whose frequency parameter multiplies the angle
directly must have an integer frequency (`GrainDeRiz` divides by
`grain_size`, so its reciprocal must be an integer); `HuitEight` is never
2π-periodic (its `cos(angle/2)` factor flips sign after one turn). -/
def rosettePeriodOK : RosettePattern → Prop
  | .Sinusoidal frequency => ∃ k : ℤ, frequency = k
  | .GrainDeRiz grain_size _ => ∃ k : ℤ, grain_size * k = 1
  | .Draperie frequency _ => ∃ k : ℤ, frequency = k
  | .Paon frequency => ∃ k : ℤ, frequency = k
  | .HuitEight _ => False
  | _ => True

/-- Config of the unbounded-displacement counterexample lathe: an
`Elliptical` rosette with eccentricity 100 (displacement reaches `-99`),
amplitude 10, base radius 1, resolution 12. -/
def ellConfig : RoseEngineConfig :=
  { RoseEngineConfig.new 1 10 with
    rosette := .Elliptical 100 0
    resolution := 12 }

/-- The lathe `new_with_center ellConfig (flat bit) (0,0)` constructs. -/
def ellLathe : RoseEngineLathe :=
  ⟨ellConfig, CuttingBit.flat 1 1, 0, 0, [], [], false⟩

/-- Config with the constant-zero `Circular` rosette, whose displacement is
trivially bounded by 1. -/
def circConfig : RoseEngineConfig :=
  { RoseEngineConfig.new 20 2 with rosette := .Circular }

/-- The lathe `new_with_center circConfig (flat bit) (0,0)` constructs. -/
def circLathe : RoseEngineLathe :=
  ⟨circConfig, CuttingBit.flat 1 1, 0, 0, [], [], false⟩

/-- A run is in a generic (non-specialized) mode when none of the four
specialized-generator fields is set — as produced by `new`,
`new_with_segments` and `new_with_center`. -/
def genericMode (run : RoseEngineLatheRun) : Prop :=
  run.circular_diamant = none ∧ run.circular_huiteight = none ∧
  run.concentric_flinque = none ∧ run.linear_paon = none

/-- The validation predicate of `RoseEngineLathe::new_with_center`:
positive base radius, non-negative amplitude, resolution at least 10. -/
def validPassCfg (c : RoseEngineConfig) : Prop :=
  0 < c.base_radius ∧ 0 ≤ c.amplitude ∧ 10 ≤ c.resolution

instance validPassCfg.decidable (c : RoseEngineConfig) : Decidable (validPassCfg c) := by
  unfold validPassCfg
  exact inferInstance

/-- Generic concentric-ring run with three passes whose middle and outer
rings are valid but whose innermost ring has non-positive base radius
(`1 + (0 - 1) * 2 = -1`), so pass 0 is skipped. -/
def c9Run : RoseEngineLatheRun :=
  ⟨RoseEngineConfig.new 1 0, CuttingBit.flat 1 1, 3, 1, 2, 0, 1, 0, 1,
   0, 0, none, none, none, none, none, [], [], false⟩

/-- A ten-point path used to instantiate the segmentation theorem. -/
def c6Path : List Point2D := List.replicate 10 ⟨0, 0⟩

/-- Case analysis of `new_with_segments`: the three rejection conditions
each yield an `InvalidParameter` error, and their absence yields a run. -/
theorem new_with_segments_cases (config : RoseEngineConfig) (bit : CuttingBit)
    (np sp : ℕ) (cx cy : ℝ) :
    ((np = 0 ∨ sp = 0 ∨ config.base_radius ≤ 0) →
      ∃ msg, RoseEngineLatheRun.new_with_segments config bit np sp cx cy =
        .error (.InvalidParameter msg)) ∧
    (np ≠ 0 → sp ≠ 0 → 0 < config.base_radius →
      ∃ run, RoseEngineLatheRun.new_with_segments config bit np sp cx cy = .ok run) := by
  unfold RoseEngineLatheRun.new_with_segments
  split_ifs with h1 h2 h3
  · exact ⟨fun _ => ⟨_, rfl⟩, fun hnp _ _ => absurd h1 hnp⟩
  · exact ⟨fun _ => ⟨_, rfl⟩, fun _ hsp _ => absurd h2 hsp⟩
  · exact ⟨fun _ => ⟨_, rfl⟩, fun _ _ hbr => absurd h3 (not_le.mpr hbr)⟩
  · refine ⟨fun h => ?_, fun _ _ _ => ⟨_, rfl⟩⟩
    rcases h with h | h | h
    exacts [absurd h h1, absurd h h2, absurd h h3]

/-- C7: `RoseEngineLatheRun` construction (`new`, `new_with_segments`,
`new_with_center`) returns an `InvalidParameter` error whenever the pass
count is zero, the segments-per-pass count is zero, or the base radius is
not strictly positive, and returns a run successfully otherwise (`new` and
`new_with_center` fix `segments_per_pass = 24`, which is never zero). -/
theorem run_construction_rejects_invalid (config : RoseEngineConfig) (bit : CuttingBit)
    (np sp : ℕ) (cx cy : ℝ) :
    ((np = 0 ∨ sp = 0 ∨ config.base_radius ≤ 0) →
      ∃ msg, RoseEngineLatheRun.new_with_segments config bit np sp cx cy =
        .error (.InvalidParameter msg)) ∧
    (np ≠ 0 → sp ≠ 0 → 0 < config.base_radius →
      ∃ run, RoseEngineLatheRun.new_with_segments config bit np sp cx cy = .ok run) ∧
    ((np = 0 ∨ config.base_radius ≤ 0) →
      ∃ msg, RoseEngineLatheRun.new config bit np = .error (.InvalidParameter msg)) ∧
    (np ≠ 0 → 0 < config.base_radius →
      ∃ run, RoseEngineLatheRun.new config bit np = .ok run) ∧
    ((np = 0 ∨ config.base_radius ≤ 0) →
      ∃ msg, RoseEngineLatheRun.new_with_center config bit np cx cy =
        .error (.InvalidParameter msg)) ∧
    (np ≠ 0 → 0 < config.base_radius →
      ∃ run, RoseEngineLatheRun.new_with_center config bit np cx cy = .ok run) := by
  obtain ⟨he, ho⟩ := new_with_segments_cases config bit np sp cx cy
  obtain ⟨heo, hoo⟩ := new_with_segments_cases config bit np 24 0 0
  obtain ⟨hec, hoc⟩ := new_with_segments_cases config bit np 24 cx cy
  have h24 : (24 : ℕ) ≠ 0 := by decide
  refine ⟨he, ho, ?_, ?_, ?_, ?_⟩
  · intro h
    unfold RoseEngineLatheRun.new
    rcases h with h | h
    · exact heo (Or.inl h)
    · exact heo (Or.inr (Or.inr h))
  · intro hnp hbr
    unfold RoseEngineLatheRun.new
    exact hoo hnp h24 hbr
  · intro h
    unfold RoseEngineLatheRun.new_with_center
    rcases h with h | h
    · exact hec (Or.inl h)
    · exact hec (Or.inr (Or.inr h))
  · intro hnp hbr
    unfold RoseEngineLatheRun.new_with_center
    exact hoc hnp h24 hbr

/-- Witness for C7: zero passes are rejected with `InvalidParameter`. -/
theorem run_construction_rejects_invalid_witness :
    ((0 : ℕ) = 0 ∨ (1 : ℕ) = 0 ∨ (RoseEngineConfig.new 20 2).base_radius ≤ 0) ∧
    ∃ msg, RoseEngineLatheRun.new_with_segments (RoseEngineConfig.new 20 2)
      (CuttingBit.flat 1 1) 0 1 0 0 = .error (.InvalidParameter msg) :=
  ⟨Or.inl rfl,
   (run_construction_rejects_invalid (RoseEngineConfig.new 20 2)
     (CuttingBit.flat 1 1) 0 1 0 0).1 (Or.inl rfl)⟩

/-- C8: exporting a freshly constructed (not yet generated) lathe or lathe
run fails with the "not generated" `ExportError` — in the model the error
is returned before any `SvgWrite` is produced, so nothing is written — and
after `generate()` the export never fails with that condition again. -/
theorem export_before_generate_fails :
    (∀ (config : RoseEngineConfig) (bit : CuttingBit) (cx cy : ℝ) lathe,
        RoseEngineLathe.new_with_center config bit cx cy = .ok lathe →
        lathe.to_svg =
          .error (.ExportError "Pattern not generated. Call generate() first.")) ∧
    (∀ lathe : RoseEngineLathe,
        lathe.generate.to_svg ≠
          .error (.ExportError "Pattern not generated. Call generate() first.")) ∧
    (∀ (config : RoseEngineConfig) (bit : CuttingBit) (np sp : ℕ) (cx cy : ℝ) run,
        RoseEngineLatheRun.new_with_segments config bit np sp cx cy = .ok run →
        run.to_svg =
          .error (.ExportError "Pattern not generated. Call generate() first.")) ∧
    (∀ run : RoseEngineLatheRun,
        run.generate.to_svg ≠
          .error (.ExportError "Pattern not generated. Call generate() first.")) := by
  refine ⟨?_, ?_, ?_, ?_⟩
  · intro config bit cx cy lathe hok
    unfold RoseEngineLathe.new_with_center at hok
    split_ifs at hok
    all_goals first
      | exact Except.noConfusion hok
      | · injection hok with h
          subst h
          rfl
  · intro lathe
    simp [RoseEngineLathe.generate, RoseEngineLathe.to_svg]
  · intro config bit np sp cx cy run hok
    unfold RoseEngineLatheRun.new_with_segments at hok
    split_ifs at hok
    all_goals first
      | exact Except.noConfusion hok
      | · injection hok with h
          subst h
          rfl
  · intro run
    obtain ⟨bc, cb, np, sp, rs, psh, po, cp, pe, cx, cy, lp, cd, pl, cf, ch, pas, sl, g⟩ := run
    cases cd <;> cases ch <;> cases cf <;> cases lp <;>
      simp [RoseEngineLatheRun.generate, RoseEngineLatheRun.to_svg]

/-- Witness for C8: a concrete constructed lathe refuses to export. -/
theorem export_before_generate_fails_witness :
    RoseEngineLathe.new_with_center circConfig (CuttingBit.flat 1 1) 0 0 = .ok circLathe ∧
    circLathe.to_svg =
      .error (.ExportError "Pattern not generated. Call generate() first.") := by
  have hok : RoseEngineLathe.new_with_center circConfig (CuttingBit.flat 1 1) 0 0 =
      .ok circLathe := by
    unfold RoseEngineLathe.new_with_center
    rw [if_neg (by norm_num [circConfig, RoseEngineConfig.new]),
      if_neg (by norm_num [circConfig, RoseEngineConfig.new]),
      if_neg (by norm_num [circConfig, RoseEngineConfig.new])]
    rfl
  exact ⟨hok, export_before_generate_fails.1 circConfig (CuttingBit.flat 1 1) 0 0 circLathe hok⟩

/-- C10: for a `Custom` rosette built by `from_function` with at least one
sample, the lookup table has exactly `samples` entries and both table
indices computed by the `Custom` branch of `displacement` are strictly
below `samples` for every angle, so the table lookups never go out of
bounds and the out-of-bounds branch is unreachable. -/
theorem custom_rosette_indices_in_bounds (f : ℝ → ℝ) (samples : ℕ) (h : 1 ≤ samples)
    (angle : ℝ) :
    (fromFunctionTable f samples).length = samples ∧
    customIndex angle samples < samples ∧
    customNextIndex angle samples < samples := by
  refine ⟨?_, Nat.mod_lt _ h, Nat.mod_lt _ h⟩
  unfold fromFunctionTable
  rw [List.length_map, List.length_range]

/-- Witness for C10: the one-sample constant table is safe at angle 0. -/
theorem custom_rosette_indices_in_bounds_witness :
    1 ≤ 1 ∧ ((fromFunctionTable (fun _ => 0) 1).length = 1 ∧
      customIndex 0 1 < 1 ∧ customNextIndex 0 1 < 1) :=
  ⟨le_refl 1, custom_rosette_indices_in_bounds (fun _ => 0) 1 (le_refl 1) 0⟩

/-- C4: for every built-in cutting-bit shape (with non-negative width and
positive depth), the spec-modelled `width_at_depth` is the full width at
depth `0`, exactly `0` at or beyond the bit's depth, and non-increasing on
`[0, depth]`. -/
theorem width_at_depth_contract (bit : CuttingBit) (hs : bit.shape.builtin)
    (hw : 0 ≤ bit.width) (hd : 0 < bit.depth) :
    bit.width_at_depth 0 = bit.width ∧
    (∀ d, bit.depth ≤ d → bit.width_at_depth d = 0) ∧
    (∀ d1 d2, 0 ≤ d1 → d1 ≤ d2 → d2 ≤ bit.depth →
      bit.width_at_depth d2 ≤ bit.width_at_depth d1) := by
  obtain ⟨shape, width, depth⟩ := bit
  cases shape with
  | Custom profile => exact hs.elim
  | Flat =>
      dsimp only [CuttingBit.width_at_depth] at *
      refine ⟨by rw [if_neg (by linarith)], fun d hdd => by rw [if_pos hdd], ?_⟩
      intro d1 d2 h1 h12 h2
      by_cases hc2 : depth ≤ d2
      · rw [if_pos hc2]
        split_ifs
        · exact le_refl 0
        · exact hw
      · rw [if_neg hc2, if_neg (by linarith)]
  | VShaped a =>
      dsimp only [CuttingBit.width_at_depth] at *
      refine ⟨?_, fun d hdd => by rw [if_pos hdd], ?_⟩
      · rw [if_neg (by linarith)]
        simp
      · intro d1 d2 h1 h12 h2
        by_cases hc2 : depth ≤ d2
        · rw [if_pos hc2]
          split_ifs with hc1
          · exact le_refl 0
          · have hdiv : d1 / depth ≤ 1 := (div_le_one hd).mpr (by linarith)
            have hdiv0 : 0 ≤ d1 / depth := div_nonneg h1 hd.le
            nlinarith
        · have hc1 : ¬ depth ≤ d1 := by linarith
          rw [if_neg hc2, if_neg hc1]
          have hdd : d1 / depth ≤ d2 / depth := (div_le_div_iff_of_pos_right hd).mpr h12
          nlinarith
  | Round =>
      dsimp only [CuttingBit.width_at_depth] at *
      refine ⟨?_, fun d hdd => by rw [if_pos hdd], ?_⟩
      · rw [if_neg (by linarith)]
        simp [Real.sqrt_one]
      · intro d1 d2 h1 h12 h2
        by_cases hc2 : depth ≤ d2
        · rw [if_pos hc2]
          split_ifs
          · exact le_refl 0
          · exact mul_nonneg hw (Real.sqrt_nonneg _)
        · have hc1 : ¬ depth ≤ d1 := by linarith
          rw [if_neg hc2, if_neg hc1]
          refine mul_le_mul_of_nonneg_left (Real.sqrt_le_sqrt ?_) hw
          have hdd : d1 / depth ≤ d2 / depth := (div_le_div_iff_of_pos_right hd).mpr h12
          nlinarith [div_nonneg h1 hd.le, div_nonneg (h1.trans h12) hd.le]
  | Elliptical ar =>
      dsimp only [CuttingBit.width_at_depth] at *
      refine ⟨?_, fun d hdd => by rw [if_pos hdd], ?_⟩
      · rw [if_neg (by linarith)]
        simp [Real.sqrt_one]
      · intro d1 d2 h1 h12 h2
        by_cases hc2 : depth ≤ d2
        · rw [if_pos hc2]
          split_ifs
          · exact le_refl 0
          · exact mul_nonneg hw (Real.sqrt_nonneg _)
        · have hc1 : ¬ depth ≤ d1 := by linarith
          rw [if_neg hc2, if_neg hc1]
          refine mul_le_mul_of_nonneg_left (Real.sqrt_le_sqrt ?_) hw
          have hdd : d1 / depth ≤ d2 / depth := (div_le_div_iff_of_pos_right hd).mpr h12
          nlinarith [div_nonneg h1 hd.le, div_nonneg (h1.trans h12) hd.le]

/-- Witness for C4: the flat 1×1 bit satisfies the contract. -/
theorem width_at_depth_contract_witness :
    ((CuttingBit.flat 1 1).shape.builtin ∧ 0 ≤ (CuttingBit.flat 1 1).width ∧
      0 < (CuttingBit.flat 1 1).depth) ∧
    ((CuttingBit.flat 1 1).width_at_depth 0 = (CuttingBit.flat 1 1).width ∧
      (∀ d, (CuttingBit.flat 1 1).depth ≤ d → (CuttingBit.flat 1 1).width_at_depth d = 0) ∧
      (∀ d1 d2, 0 ≤ d1 → d1 ≤ d2 → d2 ≤ (CuttingBit.flat 1 1).depth →
        (CuttingBit.flat 1 1).width_at_depth d2 ≤ (CuttingBit.flat 1 1).width_at_depth d1)) :=
  ⟨⟨trivial, by norm_num [CuttingBit.flat], by norm_num [CuttingBit.flat]⟩,
   width_at_depth_contract (CuttingBit.flat 1 1) trivial
     (by norm_num [CuttingBit.flat]) (by norm_num [CuttingBit.flat])⟩

/-- C6: segmenting a non-empty pass path: with one segment per pass the
output is the single unbroken path; with `k > 1` segments the output has at
most `k` polylines, every polyline is the contiguous slice of the path
starting at `s * (total/k)` of `⌊(total/k) * 0.7⌋` points (clipped at the
path end), and whenever a cycle holds at least one point the drawn part is
strictly shorter than the cycle, leaving a gap before the next segment. -/
theorem segment_path_segments (path : List Point2D) (k : ℕ) (hne : path ≠ []) :
    (k = 1 → segmentPath k path = [path]) ∧
    (1 < k →
      (segmentPath k path).length ≤ k ∧
      (∀ seg ∈ segmentPath k path, ∃ s, s < k ∧
        seg = (path.drop (s * (path.length / k))).take
          ⌊((path.length / k : ℕ) : ℝ) * (0.7 : ℝ)⌋₊) ∧
      (1 ≤ path.length / k →
        ⌊((path.length / k : ℕ) : ℝ) * (0.7 : ℝ)⌋₊ < path.length / k)) := by
  have hpe : path.isEmpty = false := by
    simp [List.isEmpty_iff, hne]
  constructor
  · intro hk
    subst hk
    unfold segmentPath
    rw [if_neg (by simp [hpe]), if_pos rfl]
  · intro hk
    have hk1 : k ≠ 1 := by omega
    have hk0 : k ≠ 0 := by omega
    unfold segmentPath
    rw [if_neg (by simp [hpe, hk0]), if_neg hk1]
    refine ⟨?_, ?_, ?_⟩
    · exact (List.length_filterMap_le _ _).trans (by simp)
    · intro seg hmem
      rw [List.mem_filterMap] at hmem
      obtain ⟨s, hs, hf⟩ := hmem
      rw [List.mem_range] at hs
      refine ⟨s, hs, ?_⟩
      dsimp only at hf
      split_ifs at hf with hcond hempty
      all_goals first
        | exact Option.noConfusion hf
        | · injection hf with hf
            subst hf
            apply List.take_eq_take.mpr
            rw [List.length_drop]
            omega
    · intro h1
      have hppc : (1 : ℝ) ≤ ((path.length / k : ℕ) : ℝ) := by exact_mod_cast h1
      refine (Nat.floor_lt (by positivity)).mpr ?_
      nlinarith

/-- Witness for C6: a ten-point path cut into two segments. -/
theorem segment_path_segments_witness :
    c6Path ≠ [] ∧
    ((1 = 1 → segmentPath 1 c6Path = [c6Path]) ∧
      (1 < 2 →
        (segmentPath 2 c6Path).length ≤ 2 ∧
        (∀ seg ∈ segmentPath 2 c6Path, ∃ s, s < 2 ∧
          seg = (c6Path.drop (s * (c6Path.length / 2))).take
            ⌊((c6Path.length / 2 : ℕ) : ℝ) * (0.7 : ℝ)⌋₊) ∧
        (1 ≤ c6Path.length / 2 →
          ⌊((c6Path.length / 2 : ℕ) : ℝ) * (0.7 : ℝ)⌋₊ < c6Path.length / 2))) :=
  ⟨by simp [c6Path],
   ⟨(segment_path_segments c6Path 1 (by simp [c6Path])).1,
    (segment_path_segments c6Path 2 (by simp [c6Path])).2⟩⟩

/-- A `u32` exponent below `2^31` survives the `i32` cast, so `powi` is the
plain natural power there. -/
theorem powiU32_eq_pow (x : ℝ) (e : ℕ) (h : e < 2 ^ 31) : powiU32 x e = x ^ e := by
  unfold powiU32 i32OfU32
  have hm : e % 2 ^ 32 = e := Nat.mod_eq_of_lt (by omega)
  rw [hm, if_pos h, zpow_natCast]

/-- The code's `phase_shape_fn` agrees with the claim's formula (which uses
the mathematical sign function and a plain power) whenever the dome mode is
active or the sin-power exponent is between 1 and `2^31 - 1`; outside that
range the code's `powi(phase_exponent as i32)` either evaluates `0^0 = 1`
with `signum(0) = 1` (exponent 0) or wraps to a reciprocal power
(exponent ≥ `2^31`). -/
theorem phase_shape_fn_eq_spec (run : RoseEngineLatheRun)
    (h : 0 < run.circular_phase ∨
      (1 ≤ run.phase_exponent ∧ run.phase_exponent < 2 ^ 31)) (t : ℝ) :
    run.phase_shape_fn t = specPhaseShape run.circular_phase run.phase_exponent t := by
  unfold RoseEngineLatheRun.phase_shape_fn specPhaseShape
  dsimp only
  split_ifs with hcp
  · rcases lt_trichotomy (Real.sin t) 0 with hs | hs | hs
    · rw [Real.sign_of_neg hs, rSignum, if_pos hs]
      ring
    · rw [hs]
      simp [rSignum, Real.one_rpow]
    · rw [Real.sign_of_pos hs, rSignum, if_neg (by linarith)]
      ring
  · have hrange : 1 ≤ run.phase_exponent ∧ run.phase_exponent < 2 ^ 31 := by
      rcases h with h | h
      · exact absurd h hcp
      · exact h
    have hpe : run.phase_exponent ≠ 0 := by omega
    rw [powiU32_eq_pow _ _ hrange.2]
    rcases lt_trichotomy (Real.sin t) 0 with hs | hs | hs
    · rw [Real.sign_of_neg hs, rSignum, if_pos hs]
      ring
    · rw [hs]
      simp [rSignum, zero_pow hpe]
    · rw [Real.sign_of_pos hs, rSignum, if_neg (by linarith)]
      ring

/-- C2 (amended): in concentric-ring mode with at least one pass, pass `i`
gets `base_radius = original + (i - (N-1)/2) * radius_step`,
unconditionally; and — provided `circular_phase > 0` or
`1 ≤ phase_exponent < 2^31` (so the code's `powi(phase_exponent as i32)`
neither evaluates `0^0` nor wraps to a reciprocal power) —
`phase = base_phase + phase_shift * phase_shape(2π·phase_oscillations·i/N)`
with `phase_shape` exactly the claim's two-branch formula. -/
theorem concentric_pass_config (run : RoseEngineLatheRun)
    (hmode : run.radius_step ≠ 0) (hN : 1 ≤ run.num_passes) (i : ℕ) :
    (run.passConfig i).base_radius =
      run.base_config.base_radius +
        ((i : ℝ) - ((run.num_passes : ℝ) - 1) / 2) * run.radius_step ∧
    ((0 < run.circular_phase ∨
        (1 ≤ run.phase_exponent ∧ run.phase_exponent < 2 ^ 31)) →
      (run.passConfig i).phase =
        run.base_config.phase + run.phase_shift *
          specPhaseShape run.circular_phase run.phase_exponent
            (2 * Real.pi * run.phase_oscillations * (i : ℝ) / (run.num_passes : ℝ))) := by
  unfold RoseEngineLatheRun.passConfig
  rw [if_pos hmode]
  dsimp only
  constructor
  · rw [Nat.cast_sub hN, Nat.cast_one]
  · intro hshape
    rw [phase_shape_fn_eq_spec run hshape]

/-- Counterexample to C2 as stated: with `circular_phase = 0` and
`phase_exponent = 0`, Rust evaluates `|sin 0|^0 = 1` (`powi` of exponent 0)
and `signum(sin 0) = 1`, so pass 0 of `c2CexRun` gets phase
`base + phase_shift * 1 = 1`, while the claim's formula
`sign(sin 0) * |sin 0|^0 = 0` predicts phase `0`. -/
theorem concentric_pass_config_cex :
    (c2CexRun.passConfig 0).phase ≠
      c2CexRun.base_config.phase + c2CexRun.phase_shift *
        specPhaseShape c2CexRun.circular_phase c2CexRun.phase_exponent
          (2 * Real.pi * c2CexRun.phase_oscillations * ((0 : ℕ) : ℝ) /
            (c2CexRun.num_passes : ℕ)) := by
  have hlhs : (c2CexRun.passConfig 0).phase = 1 := by
    unfold RoseEngineLatheRun.passConfig c2CexRun
    rw [if_pos (by norm_num)]
    dsimp only
    unfold RoseEngineLatheRun.phase_shape_fn
    dsimp only
    rw [if_neg (by norm_num)]
    norm_num [RoseEngineConfig.new, rSignum, Real.sin_zero, powiU32, i32OfU32]
  have hrhs : c2CexRun.base_config.phase + c2CexRun.phase_shift *
      specPhaseShape c2CexRun.circular_phase c2CexRun.phase_exponent
        (2 * Real.pi * c2CexRun.phase_oscillations * ((0 : ℕ) : ℝ) /
          (c2CexRun.num_passes : ℕ)) = 0 := by
    unfold specPhaseShape c2CexRun
    rw [if_neg (by norm_num)]
    norm_num [RoseEngineConfig.new, Real.sign_zero]
  rw [hlhs, hrhs]
  norm_num

/-- Witness for C2: the default exponent `phase_exponent = 1` run satisfies
the amended pass-configuration formulas at pass 0. -/
theorem concentric_pass_config_witness :
    (c2WitRun.radius_step ≠ 0 ∧ 1 ≤ c2WitRun.num_passes) ∧
    ((c2WitRun.passConfig 0).base_radius =
      c2WitRun.base_config.base_radius +
        (((0 : ℕ) : ℝ) - ((c2WitRun.num_passes : ℝ) - 1) / 2) * c2WitRun.radius_step ∧
    ((0 < c2WitRun.circular_phase ∨
        (1 ≤ c2WitRun.phase_exponent ∧ c2WitRun.phase_exponent < 2 ^ 31)) →
      (c2WitRun.passConfig 0).phase =
        c2WitRun.base_config.phase + c2WitRun.phase_shift *
          specPhaseShape c2WitRun.circular_phase c2WitRun.phase_exponent
            (2 * Real.pi * c2WitRun.phase_oscillations * ((0 : ℕ) : ℝ) /
              (c2WitRun.num_passes : ℝ)))) :=
  ⟨⟨by norm_num [c2WitRun], by norm_num [c2WitRun]⟩,
   concentric_pass_config c2WitRun (by norm_num [c2WitRun]) (by norm_num [c2WitRun]) 0⟩

/-- Shifting the sine argument by a natural multiple of π preserves the
absolute value. -/
theorem abs_sin_add_nat_mul_pi (x : ℝ) (n : ℕ) :
    |Real.sin (x + (n : ℝ) * Real.pi)| = |Real.sin x| := by
  have hcast : ((n : ℤ) : ℝ) = (n : ℝ) := by push_cast; ring
  rw [← hcast, Real.sin_add_int_mul_pi, zpow_natCast, abs_mul, abs_pow, abs_neg, abs_one,
    one_pow, one_mul]

/-- `rem_euclid` by `2π` is invariant under adding `2π`. -/
theorem remEuclid_two_pi_add (x : ℝ) :
    remEuclid (x + 2 * Real.pi) (2 * Real.pi) = remEuclid x (2 * Real.pi) := by
  unfold remEuclid
  have h2pi : (2 * Real.pi) ≠ 0 := by positivity
  have harg : (x + 2 * Real.pi) / (2 * Real.pi) = x / (2 * Real.pi) + 1 := by
    field_simp
  rw [harg, Int.floor_add_one]
  push_cast
  ring

/-- Counterexample to C3 as stated: the `HuitEight` displacement
`sin(n·θ)·cos(θ/2)` flips sign after a full turn; at `θ = π/2` with one
lobe it is `√2/2` but `-√2/2` at `θ = π/2 + 2π`. -/
theorem rosette_two_pi_periodicity_cex :
    (RosettePattern.HuitEight 1).displacement (Real.pi / 2 + 2 * Real.pi) ≠
      (RosettePattern.HuitEight 1).displacement (Real.pi / 2) := by
  dsimp only [RosettePattern.displacement]
  rw [Nat.cast_one, mul_one, mul_one]
  have h1 : Real.sin (Real.pi / 2 + 2 * Real.pi) = 1 := by
    rw [Real.sin_add_two_pi, Real.sin_pi_div_two]
  have h2 : (Real.pi / 2 + 2 * Real.pi) / 2 = Real.pi / 4 + Real.pi := by ring
  have h3 : Real.pi / 2 / 2 = Real.pi / 4 := by ring
  rw [h1, h2, h3, Real.cos_add_pi, Real.sin_pi_div_two, Real.cos_pi_div_four]
  have hs2 : (0 : ℝ) < Real.sqrt 2 := Real.sqrt_pos.mpr (by norm_num)
  intro h
  nlinarith

/-- C3 (amended): every rosette variant except `HuitEight` has a
2π-periodic displacement, provided its real frequency-type parameters are
integral (`Sinusoidal`, `Draperie`, `Paon` frequency an integer;
`GrainDeRiz` grain size a reciprocal of an integer; the `usize` lobe/petal
counts impose no condition); `HuitEight` is instead 2π-anti-periodic:
`displacement(θ + 2π) = -displacement(θ)`. -/
theorem rosette_two_pi_periodicity :
    (∀ p : RosettePattern, rosettePeriodOK p → ∀ θ : ℝ,
      p.displacement (θ + 2 * Real.pi) = p.displacement θ) ∧
    (∀ (n : ℕ) (θ : ℝ),
      (RosettePattern.HuitEight n).displacement (θ + 2 * Real.pi) =
        -(RosettePattern.HuitEight n).displacement θ) := by
  constructor
  · intro p hp θ
    cases p with
    | Circular => rfl
    | Elliptical ecc rot =>
        dsimp only [RosettePattern.displacement]
        have harg : θ + 2 * Real.pi - rot = (θ - rot) + 2 * Real.pi := by ring
        rw [harg, Real.cos_add_two_pi, Real.sin_add_two_pi]
    | Sinusoidal f =>
        obtain ⟨k, rfl⟩ := hp
        dsimp only [RosettePattern.displacement]
        have harg : (θ + 2 * Real.pi) * (k : ℝ) = θ * (k : ℝ) + (k : ℝ) * (2 * Real.pi) := by
          ring
        rw [harg, Real.sin_add_int_mul_two_pi]
    | MultiLobe lobes =>
        dsimp only [RosettePattern.displacement]
        have harg : (θ + 2 * Real.pi) * (lobes : ℝ) / 2 =
            θ * (lobes : ℝ) / 2 + (lobes : ℝ) * Real.pi := by ring
        rw [harg, abs_sin_add_nat_mul_pi]
    | Epicycloid petals =>
        dsimp only [RosettePattern.displacement]
        have harg : (θ + 2 * Real.pi) * (petals : ℝ) =
            θ * (petals : ℝ) + ((petals : ℤ) : ℝ) * (2 * Real.pi) := by push_cast; ring
        rw [harg, Real.cos_add_int_mul_two_pi]
    | HuitEight lobes => exact hp.elim
    | GrainDeRiz gs rows =>
        obtain ⟨k, hk⟩ := hp
        have hgs : gs ≠ 0 := by
          intro h0
          rw [h0, zero_mul] at hk
          exact zero_ne_one hk
        dsimp only [RosettePattern.displacement]
        have harg1 : (θ + 2 * Real.pi) * (rows : ℝ) =
            θ * (rows : ℝ) + ((rows : ℤ) : ℝ) * (2 * Real.pi) := by push_cast; ring
        have hk2 : (k : ℝ) * (2 * Real.pi) = (2 * Real.pi) / gs := by
          rw [eq_div_iff hgs]
          linear_combination (2 * Real.pi) * hk
        have harg2 : (θ + 2 * Real.pi) / gs = θ / gs + (k : ℝ) * (2 * Real.pi) := by
          rw [add_div, hk2]
        rw [harg1, Real.sin_add_int_mul_two_pi, harg2, Real.sin_add_int_mul_two_pi]
    | Draperie f we =>
        obtain ⟨k, rfl⟩ := hp
        dsimp only [RosettePattern.displacement]
        have harg : (θ + 2 * Real.pi) * (k : ℝ) = θ * (k : ℝ) + (k : ℝ) * (2 * Real.pi) := by
          ring
        rw [harg, Real.sin_add_int_mul_two_pi]
    | Paon f =>
        obtain ⟨k, rfl⟩ := hp
        dsimp only [RosettePattern.displacement]
        have harg : (θ + 2 * Real.pi) * (k : ℝ) = θ * (k : ℝ) + (k : ℝ) * (2 * Real.pi) := by
          ring
        rw [harg, Real.sin_add_int_mul_two_pi]
    | Diamant divisions =>
        dsimp only [RosettePattern.displacement]
        have harg1 : (θ + 2 * Real.pi) * (divisions : ℝ) =
            θ * (divisions : ℝ) + ((divisions : ℤ) : ℝ) * (2 * Real.pi) := by push_cast; ring
        have harg2 : (θ + 2 * Real.pi) * (divisions : ℝ) + Real.pi / 4 =
            (θ * (divisions : ℝ) + Real.pi / 4) + ((divisions : ℤ) : ℝ) * (2 * Real.pi) := by
          push_cast; ring
        rw [harg1, Real.sin_add_int_mul_two_pi]
        rw [show θ * (divisions : ℝ) + ((divisions : ℤ) : ℝ) * (2 * Real.pi) + Real.pi / 4 =
            (θ * (divisions : ℝ) + Real.pi / 4) + ((divisions : ℤ) : ℝ) * (2 * Real.pi) from by
          push_cast; ring, Real.sin_add_int_mul_two_pi]
    | Custom table samples =>
        have hF : customIndexF (θ + 2 * Real.pi) samples = customIndexF θ samples := by
          unfold customIndexF
          rw [remEuclid_two_pi_add]
        simp only [RosettePattern.displacement, customIndex, customNextIndex, hF]
  · intro n θ
    dsimp only [RosettePattern.displacement]
    have harg1 : (θ + 2 * Real.pi) * (n : ℝ) =
        θ * (n : ℝ) + ((n : ℤ) : ℝ) * (2 * Real.pi) := by push_cast; ring
    have harg2 : (θ + 2 * Real.pi) / 2 = θ / 2 + Real.pi := by ring
    rw [harg1, Real.sin_add_int_mul_two_pi, harg2, Real.cos_add_pi]
    ring

/-- Witness for C3: the integer-frequency `Sinusoidal` rosette is
2π-periodic at `θ = 0`. -/
theorem rosette_two_pi_periodicity_witness :
    rosettePeriodOK (RosettePattern.Sinusoidal 1) ∧
    (RosettePattern.Sinusoidal 1).displacement (0 + 2 * Real.pi) =
      (RosettePattern.Sinusoidal 1).displacement 0 :=
  ⟨⟨1, by norm_num⟩,
   rosette_two_pi_periodicity.1 (RosettePattern.Sinusoidal 1) ⟨1, by norm_num⟩ 0⟩

/-- `getD` on a mapped range evaluates the mapped function. -/
theorem getD_map_range {α : Type} (f : ℕ → α) (n i : ℕ) (h : i < n) (d : α) :
    (((List.range n).map f).getD i d) = f i := by
  rw [List.getD_eq_getElem?_getD]
  simp [List.getElem?_map, List.getElem?_range h]

/-- The radius at any angle is bounded by
`base_radius + amplitude + secondary_amplitude` in absolute value whenever
both displacements are bounded by 1 and the amplitudes are admissible. -/
theorem radius_at_angle_abs_le (c : RoseEngineConfig)
    (hbase : 0 < c.base_radius) (hamp : 0 ≤ c.amplitude)
    (hsa : 0 ≤ c.secondary_amplitude)
    (hprim : ∀ θ, |c.rosette.displacement θ| ≤ 1)
    (hsec : ∀ s, c.secondary_rosette = some s → ∀ θ, |s.displacement θ| ≤ 1)
    (angle : ℝ) :
    |c.radius_at_angle angle| ≤ c.base_radius + c.amplitude + c.secondary_amplitude := by
  unfold RoseEngineConfig.radius_at_angle
  dsimp only
  have hprim1 : |c.amplitude * c.rosette.displacement (angle + c.phase)| ≤ c.amplitude := by
    rw [abs_mul, abs_of_nonneg hamp]
    calc c.amplitude * |c.rosette.displacement (angle + c.phase)| ≤ c.amplitude * 1 :=
          mul_le_mul_of_nonneg_left (hprim _) hamp
      _ = c.amplitude := mul_one _
  have hterm : |c.amplitude * c.rosette.displacement (angle + c.phase) +
      (match c.secondary_rosette with
       | some secondary =>
           c.secondary_amplitude * secondary.displacement (angle + c.secondary_phase)
       | none => 0)| ≤ c.amplitude + c.secondary_amplitude := by
    rcases hs : c.secondary_rosette with _ | s
    · simp only [hs]
      rw [add_zero]
      linarith [hprim1]
    · simp only [hs]
      have hsec1 : |c.secondary_amplitude * s.displacement (angle + c.secondary_phase)| ≤
          c.secondary_amplitude := by
        rw [abs_mul, abs_of_nonneg hsa]
        calc c.secondary_amplitude * |s.displacement (angle + c.secondary_phase)| ≤
              c.secondary_amplitude * 1 :=
            mul_le_mul_of_nonneg_left (hsec s hs _) hsa
          _ = c.secondary_amplitude := mul_one _
      calc |c.amplitude * c.rosette.displacement (angle + c.phase) +
            c.secondary_amplitude * s.displacement (angle + c.secondary_phase)| ≤
            |c.amplitude * c.rosette.displacement (angle + c.phase)| +
              |c.secondary_amplitude * s.displacement (angle + c.secondary_phase)| :=
          abs_add _ _
        _ ≤ c.amplitude + c.secondary_amplitude := add_le_add hprim1 hsec1
  calc |c.base_radius + _| ≤ |c.base_radius| + _ := abs_add _ _
    _ ≤ c.base_radius + (c.amplitude + c.secondary_amplitude) := by
        rw [abs_of_pos hbase]
        exact add_le_add_left hterm _
    _ = c.base_radius + c.amplitude + c.secondary_amplitude := by ring

/-- C5 (amended): a validly constructed single-pass lathe's generated tool
path has exactly `resolution + 1` points, unconditionally; and — provided
the primary (and, when present, secondary) rosette displacements are
bounded by 1 in absolute value and the secondary amplitude is non-negative
— every point lies within `base_radius + amplitude + secondary_amplitude`
of the configured center. -/
theorem lathe_tool_path_bounds (config : RoseEngineConfig) (bit : CuttingBit)
    (cx cy : ℝ) (lathe : RoseEngineLathe)
    (hok : RoseEngineLathe.new_with_center config bit cx cy = .ok lathe) :
    lathe.generate.tool_path.length = config.resolution + 1 ∧
    ((∀ θ, |config.rosette.displacement θ| ≤ 1) →
      (∀ s, config.secondary_rosette = some s → ∀ θ, |s.displacement θ| ≤ 1) →
      0 ≤ config.secondary_amplitude →
      ∀ p ∈ lathe.generate.tool_path,
        p.dist ⟨cx, cy⟩ ≤
          config.base_radius + config.amplitude + config.secondary_amplitude) := by
  unfold RoseEngineLathe.new_with_center at hok
  split_ifs at hok with h1 h2 h3
  · injection hok with hok
    subst hok
    have hbase : 0 < config.base_radius := lt_of_not_le h1
    have hamp : 0 ≤ config.amplitude := le_of_not_lt h2
    constructor
    · show (RoseEngineLathe.freshToolPath _).length = _
      unfold RoseEngineLathe.freshToolPath
      rw [List.length_map, List.length_range]
    · intro hprim hsec hsa p hp
      have hp2 : p ∈ RoseEngineLathe.freshToolPath
          ⟨config, bit, cx, cy, [], [], false⟩ := hp
      unfold RoseEngineLathe.freshToolPath at hp2
      rw [List.mem_map] at hp2
      obtain ⟨i, hi, rfl⟩ := hp2
      dsimp only
      unfold Point2D.dist
      dsimp only
      set av := config.start_angle +
        (i : ℝ) * ((config.end_angle - config.start_angle) / (config.resolution : ℝ)) with hav
      set R := config.radius_at_angle av with hRdef
      have hsq : (cx + R * Real.cos av - cx) ^ 2 + (cy + R * Real.sin av - cy) ^ 2 =
          R ^ 2 := by
        linear_combination (R ^ 2) * (Real.sin_sq_add_cos_sq av)
      rw [hsq, Real.sqrt_sq_eq_abs]
      exact radius_at_angle_abs_le config hbase hamp hsa hprim hsec av

/-- Counterexample to C5 as stated: the `Elliptical` rosette with
eccentricity 100 has displacement `-99` at `π/2`, so with amplitude 10 and
base radius 1 the tool-path radius reaches `-989`: the point at sample
index 3 of the 12-resolution path lies 989 mm from the center, far beyond
`base_radius + amplitude + secondary_amplitude = 11`. -/
theorem lathe_tool_path_bounds_cex :
    RoseEngineLathe.new_with_center ellConfig (CuttingBit.flat 1 1) 0 0 = .ok ellLathe ∧
    ellLathe.generate.tool_path.length = 13 ∧
    ¬ ((ellLathe.generate.tool_path.getD 3 ⟨0, 0⟩).dist ⟨0, 0⟩ ≤
        ellConfig.base_radius + ellConfig.amplitude + ellConfig.secondary_amplitude) := by
  have hπ : Real.pi ≠ 0 := Real.pi_ne_zero
  refine ⟨?_, ?_, ?_⟩
  · unfold RoseEngineLathe.new_with_center
    rw [if_neg (by norm_num [ellConfig, RoseEngineConfig.new]),
      if_neg (by norm_num [ellConfig, RoseEngineConfig.new]),
      if_neg (by norm_num [ellConfig, RoseEngineConfig.new])]
    rfl
  · show (RoseEngineLathe.freshToolPath _).length = 13
    unfold RoseEngineLathe.freshToolPath
    rw [List.length_map, List.length_range]
    norm_num [ellLathe, ellConfig, RoseEngineConfig.new]
  · have hres : (RoseEngineLathe.generate ellLathe).tool_path =
        RoseEngineLathe.freshToolPath ellLathe := rfl
    rw [hres]
    unfold RoseEngineLathe.freshToolPath
    rw [show ellLathe.config.resolution + 1 = 13 from by
      norm_num [ellLathe, ellConfig, RoseEngineConfig.new]]
    rw [getD_map_range _ 13 3 (by norm_num) _]
    have hα : ellLathe.config.start_angle + ((3 : ℕ) : ℝ) *
        ((ellLathe.config.end_angle - ellLathe.config.start_angle) /
          (ellLathe.config.resolution : ℝ)) = Real.pi / 2 := by
      norm_num [ellLathe, ellConfig, RoseEngineConfig.new]
      ring
    rw [hα]
    dsimp only
    have hr : ellLathe.config.radius_at_angle (Real.pi / 2) = -989 := by
      unfold RoseEngineConfig.radius_at_angle
      show ellLathe.config.base_radius +
          (ellLathe.config.amplitude *
            ellLathe.config.rosette.displacement (Real.pi / 2 + ellLathe.config.phase) + _)
          = -989
      norm_num [ellLathe, ellConfig, RoseEngineConfig.new]
      unfold RosettePattern.displacement
      dsimp only
      rw [sub_zero, Real.cos_pi_div_two, Real.sin_pi_div_two]
      norm_num [Real.sqrt_one]
    rw [hr]
    unfold Point2D.dist
    dsimp only
    rw [Real.cos_pi_div_two, Real.sin_pi_div_two]
    have h989 : ellLathe.center_x + -989 * 0 - 0 = 0 := by
      norm_num [ellLathe]
    have h989y : ellLathe.center_y + -989 * 1 - 0 = -989 := by
      norm_num [ellLathe]
    rw [h989, h989y]
    have hsqrt : Real.sqrt ((0 : ℝ) ^ 2 + (-989 : ℝ) ^ 2) = 989 := by
      rw [show ((0 : ℝ) ^ 2 + (-989 : ℝ) ^ 2) = 989 ^ 2 from by norm_num,
        Real.sqrt_sq (by norm_num)]
    rw [hsqrt]
    norm_num [ellConfig, RoseEngineConfig.new]

/-- Witness for C5: the constant-zero `Circular` rosette keeps every tool
path point within the bound. -/
theorem lathe_tool_path_bounds_witness :
    RoseEngineLathe.new_with_center circConfig (CuttingBit.flat 1 1) 0 0 = .ok circLathe ∧
    (circLathe.generate.tool_path.length = circConfig.resolution + 1 ∧
      ∀ p ∈ circLathe.generate.tool_path,
        p.dist ⟨0, 0⟩ ≤
          circConfig.base_radius + circConfig.amplitude + circConfig.secondary_amplitude) := by
  have hok : RoseEngineLathe.new_with_center circConfig (CuttingBit.flat 1 1) 0 0 =
      .ok circLathe := by
    unfold RoseEngineLathe.new_with_center
    rw [if_neg (by norm_num [circConfig, RoseEngineConfig.new]),
      if_neg (by norm_num [circConfig, RoseEngineConfig.new]),
      if_neg (by norm_num [circConfig, RoseEngineConfig.new])]
    rfl
  have hprim : ∀ θ, |circConfig.rosette.displacement θ| ≤ 1 := by
    intro θ
    show |RosettePattern.Circular.displacement θ| ≤ 1
    unfold RosettePattern.displacement
    norm_num
  have hsec : ∀ s, circConfig.secondary_rosette = some s →
      ∀ θ, |s.displacement θ| ≤ 1 := by
    intro s hs
    exact absurd hs (by simp [circConfig, RoseEngineConfig.new])
  have hsa : (0 : ℝ) ≤ circConfig.secondary_amplitude := by
    norm_num [circConfig, RoseEngineConfig.new]
  obtain ⟨hlen, hbound⟩ :=
    lathe_tool_path_bounds circConfig (CuttingBit.flat 1 1) 0 0 circLathe hok
  exact ⟨hok, hlen, hbound hprim hsec hsa⟩

/-- C1: the tangent-circle (diamant) specialized run with
`num_circles = 12`, `circle_radius = 10`, `resolution = 36`, center `(0,0)`
constructs successfully, and `generate()` produces exactly 12 polylines of
37 points each, with every point within `1e-10` of the independently
computed reference `diamantRef` (over the reals they coincide exactly). -/
theorem diamant_equivalence :
    RoseEngineLatheRun.new_diamant 12 10 36 0 0 = .ok diamantRun12 ∧
    diamantRun12.generate.segmented_lines.length = 12 ∧
    (∀ l ∈ diamantRun12.generate.segmented_lines, l.length = 37) ∧
    (∀ i, i < 12 → ∀ j, j ≤ 36 →
      ((diamantRun12.generate.segmented_lines.getD i []).getD j ⟨0, 0⟩).dist
        (diamantRef i j) < 1e-10) := by
  have hgen : diamantRun12.generate.segmented_lines =
      diamantLines ⟨12, 10, 36⟩ 0 0 := rfl
  refine ⟨?_, ?_, ?_, ?_⟩
  · unfold RoseEngineLatheRun.new_diamant RoseEngineLatheRun.new_with_segments
    norm_num [RoseEngineConfig.new, Except.map]
    simp only [diamantRun12]
    norm_num [CuttingBit.v_shaped, RoseEngineConfig.new]
  · rw [hgen]
    unfold diamantLines
    rw [List.length_map, List.length_range]
  · intro l hl
    rw [hgen] at hl
    unfold diamantLines at hl
    rw [List.mem_map] at hl
    obtain ⟨i, hi, rfl⟩ := hl
    simp only [List.length_map, List.length_range]
  · intro i hi j hj
    rw [hgen]
    unfold diamantLines
    rw [getD_map_range _ 12 i hi _]
    dsimp only
    rw [getD_map_range _ 37 j (by omega) _]
    have harg1 : (i : ℝ) * (2 * Real.pi / ((12 : ℕ) : ℝ)) = 2 * Real.pi * (i : ℝ) / 12 := by
      push_cast
      ring
    have harg2 : 2 * Real.pi * ((j : ℝ) / ((36 : ℕ) : ℝ)) = 2 * Real.pi * (j : ℝ) / 36 := by
      push_cast
      ring
    rw [harg1, harg2]
    have hpq : (⟨(0 : ℝ) + 10 * Real.cos (2 * Real.pi * (i : ℝ) / 12) +
          10 * Real.cos (2 * Real.pi * (j : ℝ) / 36),
        (0 : ℝ) + 10 * Real.sin (2 * Real.pi * (i : ℝ) / 12) +
          10 * Real.sin (2 * Real.pi * (j : ℝ) / 36)⟩ : Point2D) = diamantRef i j := by
      unfold diamantRef
      rw [Point2D.mk.injEq]
      constructor
      · ring
      · ring
    rw [hpq]
    unfold Point2D.dist diamantRef
    dsimp only
    rw [sub_self, sub_self]
    rw [show ((0 : ℝ) ^ 2 + 0 ^ 2) = 0 from by norm_num, Real.sqrt_zero]
    norm_num

/-- Witness for C1: the first sample of the first circle is within
tolerance of the reference. -/
theorem diamant_equivalence_witness :
    0 < 12 ∧ 0 ≤ 36 ∧
    ((diamantRun12.generate.segmented_lines.getD 0 []).getD 0 ⟨0, 0⟩).dist
      (diamantRef 0 0) < 1e-10 :=
  ⟨by norm_num, by norm_num,
   diamant_equivalence.2.2.2 0 (by norm_num) 0 (by norm_num)⟩

/-- Concatenating lists of length one preserves the outer length. -/
theorem length_flatMap_of_one {α β : Type} (g : α → List β) (l : List α)
    (h : ∀ x ∈ l, (g x).length = 1) : (l.flatMap g).length = l.length := by
  induction l with
  | nil => rfl
  | cons a t ih =>
      simp only [List.flatMap_cons, List.length_append, List.length_cons]
      rw [h a (by simp), ih fun x hx => h x (by simp [hx])]
      omega

/-- A pass whose configuration passes the single-pass validation yields the
generated lathe for that configuration. -/
theorem passLathe_eq_some (run : RoseEngineLatheRun) (i : ℕ)
    (h : validPassCfg (run.passConfig i)) :
    run.passLathe i = some (RoseEngineLathe.generate
      ⟨run.passConfig i, run.cutting_bit, run.center_x, run.center_y, [], [], false⟩) := by
  unfold RoseEngineLatheRun.passLathe RoseEngineLathe.new_with_center
  rw [if_neg (not_le.mpr h.1), if_neg (not_lt.mpr h.2.1), if_neg (not_lt.mpr h.2.2)]

/-- A pass whose configuration fails the single-pass validation is dropped. -/
theorem passLathe_eq_none (run : RoseEngineLatheRun) (i : ℕ)
    (h : ¬ validPassCfg (run.passConfig i)) : run.passLathe i = none := by
  unfold validPassCfg at h
  unfold RoseEngineLatheRun.passLathe RoseEngineLathe.new_with_center
  by_cases h1 : (run.passConfig i).base_radius ≤ 0
  · rw [if_pos h1]
  · by_cases h2 : (run.passConfig i).amplitude < 0
    · rw [if_neg h1, if_pos h2]
    · by_cases h3 : (run.passConfig i).resolution < 10
      · rw [if_neg h1, if_neg h2, if_pos h3]
      · exact absurd ⟨lt_of_not_le h1, le_of_not_lt h2, le_of_not_lt h3⟩ h

/-- C9: in the generic (non-specialized) mode, `generate()` always returns
normally (it is a total function here, and sets the generated flag); the
passes it stores are exactly the ones whose per-pass lathe construction
validates, an invalid pass index contributes no stored pass, and with one
segment per pass the polyline count equals the count of valid passes, so a
skipped pass contributes no polyline either. -/
theorem generate_skips_invalid_passes (run : RoseEngineLatheRun)
    (hmode : genericMode run) :
    run.generate.generated = true ∧
    run.generate.passes.length =
      ((List.range run.num_passes).countP fun i =>
        decide (validPassCfg (run.passConfig i))) ∧
    (∀ i, i < run.num_passes → ¬ validPassCfg (run.passConfig i) →
      ∀ lathe ∈ run.generate.passes, lathe.config ≠ run.passConfig i) ∧
    (run.segments_per_pass = 1 →
      run.generate.segmented_lines.length =
        ((List.range run.num_passes).countP fun i =>
          decide (validPassCfg (run.passConfig i)))) := by
  obtain ⟨h1, h2, h3, h4⟩ := hmode
  have hgen : run.generate = { run with
      passes := (List.range run.num_passes).filterMap run.passLathe
      segmented_lines := ((List.range run.num_passes).filterMap run.passLathe).flatMap
        fun lathe =>
          match lathe.rendered_lines with
          | [] => []
          | first :: _ =>
              if first.isEmpty then [] else segmentPath run.segments_per_pass first
      generated := true } := by
    unfold RoseEngineLatheRun.generate
    rw [h1, h2, h3, h4]
  rw [hgen]
  refine ⟨rfl, ?_, ?_, ?_⟩
  · dsimp only
    rw [List.length_filterMap_eq_countP]
    refine List.countP_congr fun a ha => ?_
    by_cases hv : validPassCfg (run.passConfig a)
    · simp [passLathe_eq_some run a hv, hv]
    · simp [passLathe_eq_none run a hv, hv]
  · intro i hi hinv lathe hl
    dsimp only at hl
    rw [List.mem_filterMap] at hl
    obtain ⟨a, ha, hfa⟩ := hl
    by_cases hv : validPassCfg (run.passConfig a)
    · rw [passLathe_eq_some run a hv] at hfa
      injection hfa with hfa
      subst hfa
      intro hceq
      have hcc : run.passConfig a = run.passConfig i := hceq
      rw [← hcc] at hinv
      exact hinv hv
    · rw [passLathe_eq_none run a hv] at hfa
      exact Option.noConfusion hfa
  · intro hseg
    dsimp only
    have hone : ∀ lathe ∈ (List.range run.num_passes).filterMap run.passLathe,
        (match lathe.rendered_lines with
          | [] => ([] : List (List Point2D))
          | first :: _ =>
              if first.isEmpty then [] else
                segmentPath run.segments_per_pass first).length = 1 := by
      intro lathe hl
      rw [List.mem_filterMap] at hl
      obtain ⟨a, ha, hfa⟩ := hl
      by_cases hv : validPassCfg (run.passConfig a)
      · rw [passLathe_eq_some run a hv] at hfa
        injection hfa with hfa
        subst hfa
        have hlen : (RoseEngineLathe.freshToolPath
            ⟨run.passConfig a, run.cutting_bit, run.center_x, run.center_y, [], [],
              false⟩).length = (run.passConfig a).resolution + 1 := by
          unfold RoseEngineLathe.freshToolPath
          rw [List.length_map, List.length_range]
        have hne : RoseEngineLathe.freshToolPath
            ⟨run.passConfig a, run.cutting_bit, run.center_x, run.center_y, [], [],
              false⟩ ≠ [] := by
          intro h0
          rw [h0] at hlen
          simp at hlen
        have hemp : (RoseEngineLathe.freshToolPath
            ⟨run.passConfig a, run.cutting_bit, run.center_x, run.center_y, [], [],
              false⟩).isEmpty = false := by
          simp [List.isEmpty_iff, hne]
        have hrl : (RoseEngineLathe.generate
            ⟨run.passConfig a, run.cutting_bit, run.center_x, run.center_y, [], [],
              false⟩).rendered_lines =
            RoseEngineLathe.freshToolPath
              ⟨run.passConfig a, run.cutting_bit, run.center_x, run.center_y, [], [],
                false⟩ ::
              (if (RoseEngineLathe.freshToolPath
                  ⟨run.passConfig a, run.cutting_bit, run.center_x, run.center_y, [], [],
                    false⟩).length < 2 then []
               else [cutEdge (RoseEngineLathe.freshToolPath
                  ⟨run.passConfig a, run.cutting_bit, run.center_x, run.center_y, [], [],
                    false⟩) (run.cutting_bit.width / 2) (-1),
                 cutEdge (RoseEngineLathe.freshToolPath
                  ⟨run.passConfig a, run.cutting_bit, run.center_x, run.center_y, [], [],
                    false⟩) (run.cutting_bit.width / 2) 1]) := rfl
        rw [hrl]
        dsimp only
        rw [if_neg (by simp [hemp]), hseg]
        unfold segmentPath
        rw [if_neg (by simp [hemp]), if_pos rfl]
        rfl
      · rw [passLathe_eq_none run a hv] at hfa
        exact Option.noConfusion hfa
    rw [length_flatMap_of_one _ _ hone, List.length_filterMap_eq_countP]
    refine List.countP_congr fun a ha => ?_
    by_cases hv : validPassCfg (run.passConfig a)
    · simp [passLathe_eq_some run a hv, hv]
    · simp [passLathe_eq_none run a hv, hv]

/-- Witness for C9: a three-pass concentric run whose innermost ring has
base radius `-1` and is skipped. -/
theorem generate_skips_invalid_passes_witness :
    genericMode c9Run ∧
    (c9Run.generate.generated = true ∧
      c9Run.generate.passes.length =
        ((List.range c9Run.num_passes).countP fun i =>
          decide (validPassCfg (c9Run.passConfig i))) ∧
      (∀ i, i < c9Run.num_passes → ¬ validPassCfg (c9Run.passConfig i) →
        ∀ lathe ∈ c9Run.generate.passes, lathe.config ≠ c9Run.passConfig i) ∧
      (c9Run.segments_per_pass = 1 →
        c9Run.generate.segmented_lines.length =
          ((List.range c9Run.num_passes).countP fun i =>
            decide (validPassCfg (c9Run.passConfig i))))) :=
  ⟨⟨rfl, rfl, rfl, rfl⟩,
   generate_skips_invalid_passes c9Run ⟨rfl, rfl, rfl, rfl⟩⟩

end

end Turtles
